import Mathlib

/-!
Verification of the study-plot data pipeline (src/studyplot.py).

The program is a single Python script.  We embed its data model and the three
core computations shallowly:

* parse_duration (lines 7-18): duration token to a time span;
* the session loader and daily aggregator (lines 25-55);
* the time-of-day density binner (lines 96-133).

Conventions of the embedding:

* Python strings are modelled as List Char.
* Instants (datetime values) are modelled as Nat: the number of seconds since
  the proleptic-Gregorian instant 0000-03-01 00:00:00, i.e. the civil day
  number produced by civilDay below times 86400 plus the second of the day.
  Python's datetime is proleptic Gregorian, so calendar-field arithmetic
  (weekday, hour, minute, start of day) becomes plain arithmetic on this
  representation; civilDay 1970 1 1 = 719468, a Thursday.
* Durations (timedelta) are modelled as Int seconds.
* Raising a Python exception is modelled with Option / Except.
-/

/-- Days-from-civil-date algorithm (proleptic Gregorian calendar), counting
days from 0000-03-01; valid for the years that the two-digit-year timestamp
format can produce (1969..2068). -/
def civilDay (y m d : Nat) : Nat :=
  let yAdj := if m ≤ 2 then y - 1 else y
  let era := yAdj / 400
  let yoe := yAdj % 400
  let mp := if 3 ≤ m then m - 3 else m + 9
  let doy := (153 * mp + 2) / 5 + (d - 1)
  let doe := yoe * 365 + yoe / 4 - yoe / 100 + doy
  era * 146097 + doe

/-- Build the Nat code of an instant from calendar fields,
mirroring datetime(year, month, day, hour, minute, second). -/
def mkT (y mo d h mi s : Nat) : Nat :=
  civilDay y mo d * 86400 + h * 3600 + mi * 60 + s

/-- Civil day number of an instant; Python t.date() keeps exactly this. -/
def dayOf (t : Nat) : Nat := t / 86400

/-- The instant datetime(t.year, t.month, t.day, 23, 59, 59) used at
line 111 of the source as the end of the current day. -/
def dayEnd (t : Nat) : Nat := dayOf t * 86400 + 86399

/-- Python t.weekday(): 0 = Monday .. 6 = Sunday.  Day 719468 (1970-01-01)
is a Thursday (weekday 3) and 719468 % 7 = 1, hence the +2 offset. -/
def pyWeekday (t : Nat) : Nat := (dayOf t + 2) % 7

/-- t.hour * 60 + t.minute (line 117 of the source). -/
def minuteOfDay (t : Nat) : Nat := t % 86400 / 60

/-- minute_of_day // 30 (line 118 of the source). -/
def binIdx (t : Nat) : Nat := minuteOfDay t / 30

/-! ### Python string primitives used by the script -/

/-- Python str.split(sep) for a one-character separator: split at every
occurrence, keeping empty pieces; splitting the empty string gives one
empty piece. -/
def pySplit (sep : Char) : List Char → List (List Char)
  | [] => [[]]
  | c :: rest =>
    if c == sep then
      [] :: pySplit sep rest
    else
      match pySplit sep rest with
      | g :: gs => (c :: g) :: gs
      | [] => [[c]]

/-- The whitespace characters stripped by Python str.strip(). -/
def isPyWS (c : Char) : Bool :=
  c == ' ' || c == '\t' || c == '\n' || c == '\r' || c == '\u000B' || c == '\u000C'

/-- Python str.strip(): drop leading and trailing whitespace. -/
def pyStrip (cs : List Char) : List Char :=
  ((cs.dropWhile isPyWS).reverse.dropWhile isPyWS).reverse

/-- Decimal value of a digit character. -/
def digitVal (c : Char) : Nat := c.toNat - 48

/-- Digit run of Python int(): after the first digit, an underscore may
appear, but only between two digits (PEP 515). -/
def pyDigitsAux : Nat → List Char → Option Nat
  | acc, [] => some acc
  | acc, c :: rest =>
    if c.isDigit then pyDigitsAux (acc * 10 + digitVal c) rest
    else if c == '_' then
      match rest with
      | d :: rest2 =>
        if d.isDigit then pyDigitsAux (acc * 10 + digitVal d) rest2 else none
      | [] => none
    else none

/-- Nonempty digit run (with PEP 515 underscores) and its value. -/
def pyDigits : List Char → Option Nat
  | [] => none
  | c :: rest => if c.isDigit then pyDigitsAux (digitVal c) rest else none

/-- Python int(str): strip surrounding whitespace, allow one sign, then a
digit run; anything else raises ValueError, modelled as none. -/
def pyInt (cs : List Char) : Option Int :=
  match pyStrip cs with
  | '+' :: r => (pyDigits r).map Int.ofNat
  | '-' :: r => (pyDigits r).map (fun n => -(n : Int))
  | r => (pyDigits r).map Int.ofNat

/-! ### parse_duration (source lines 7-18)

The source keeps mutable locals hours, minutes, seconds (initialised to 0)
and duration_str, and runs three if-blocks in order; int() failure raises
ValueError (none).  Each if-block is one step function on this state. -/

structure DurState where
  hours : Int
  minutes : Int
  seconds : Int
  rest : List Char
  deriving Repr, DecidableEq

/-- Lines 10-12: if "h" in duration_str, read the integer before the first
"h" into hours and keep the text after the first "h". -/
def stepH (st : DurState) : Option DurState :=
  if st.rest.contains 'h' then
    (pyInt ((pySplit 'h' st.rest).getD 0 [])).map fun h =>
      { st with hours := h, rest := (pySplit 'h' st.rest).getD 1 [] }
  else some st

/-- Lines 13-15: the same for "m" and minutes. -/
def stepM (st : DurState) : Option DurState :=
  if st.rest.contains 'm' then
    (pyInt ((pySplit 'm' st.rest).getD 0 [])).map fun m =>
      { st with minutes := m, rest := (pySplit 'm' st.rest).getD 1 [] }
  else some st

/-- Lines 16-17: the same for "s" and seconds; the source does not update
duration_str here. -/
def stepS (st : DurState) : Option DurState :=
  if st.rest.contains 's' then
    (pyInt ((pySplit 's' st.rest).getD 0 [])).map fun s =>
      { st with seconds := s }
  else some st

/-- parse_duration (lines 7-18): the result timedelta(hours, minutes,
seconds) is modelled by its total seconds. -/
def parse_duration (cs : List Char) : Option Int := do
  let st1 ← stepH ⟨0, 0, 0, cs⟩
  let st2 ← stepM st1
  let st3 ← stepS st2
  pure (st3.hours * 3600 + st3.minutes * 60 + st3.seconds)

/-! ### Sessions (source lines 29-40)

A record appended at line 35: Date (the start's civil day), Start Time,
End Time, Duration.  The Date column always equals dayOf start, so it is
kept as a derived function rather than a field. -/

structure Session where
  start : Nat
  stop : Nat
  dur : Int
  deriving Repr, DecidableEq

/-- Date column of a record (line 36): start_time.date(). -/
def sessionDate (r : Session) : Nat := dayOf r.start

/-! ### The minute walk of the density binner (source lines 106-122) -/

/-- Inner loop, lines 114-120: the instants visited by the cursor walking
from cursor to segEnd inclusive in one-minute steps. -/
def segMinutes (cursor segEnd : Nat) : List Nat :=
  if h : cursor ≤ segEnd then
    cursor :: segMinutes (cursor + 60) segEnd
  else []
termination_by segEnd + 1 - cursor
decreasing_by omega

/-- Outer loop, lines 109-122: while start < stop, walk the current day's
segment (capped at 23:59:59) and resume one second past the segment end. -/
def sessionMinutes (start stop : Nat) : List Nat :=
  if h : start < stop then
    let segEnd := min stop (dayEnd start)
    segMinutes start segEnd ++ sessionMinutes (segEnd + 1) stop
  else []
termination_by stop - start
decreasing_by
  have hle : start ≤ dayEnd start := by
    have := Nat.div_add_mod start 86400
    have : start % 86400 < 86400 := Nat.mod_lt _ (by omega)
    unfold dayEnd dayOf
    omega
  simp only [Nat.min_def] at *
  split <;> omega

/-- All instants visited while iterating over the filtered rows
(line 106). -/
def allMinutes (recs : List Session) : List Nat :=
  recs.flatMap (fun r => sessionMinutes r.start r.stop)

/-- Cell (w, b) of the accumulated 7 x 48 matrix (line 119): how many
visited minutes fall on weekday w and half-hour bin b. -/
def heatRaw (recs : List Session) (w b : Nat) : Nat :=
  (allMinutes recs).countP (fun t => pyWeekday t == w && binIdx t == b)

/-- Total of the accumulated matrix over all 7 x 48 cells, before the
normalisation of lines 125-133. -/
def totalPre (recs : List Session) : Nat :=
  ∑ w ∈ Finset.range 7, ∑ b ∈ Finset.range 48, heatRaw recs w b

/-- Line 99: df_recent, the sessions whose start is at or after the cutoff
instant (today minus x months; the cutoff is a parameter here since
datetime.now() is an input of the computation). -/
def filterRecent (recs : List Session) (cutoff : Nat) : List Session :=
  recs.filter (fun r => cutoff ≤ r.start)

/-- Line 128: (max start - min start).days / 7 over the filtered sessions.
On an empty selection max and min are NaT and NaT.days is nan, modelled as
none; otherwise timedelta.days floors, and the / 7 is true division. -/
def weeksOf (recs : List Session) : Option ℚ :=
  match recs.map Session.start with
  | [] => none
  | s :: rest =>
    let mx := (rest.foldl max s)
    let mn := (rest.foldl min s)
    some (((mx - mn) / 86400 : Nat) / 7)

/-- Lines 125-133: counts / 60 (hours), then / weeks if weeks > 0 (an
nan comparison is false, so none skips the division), then * 60. -/
def heatFinal (recs : List Session) (cutoff : Nat) (w b : Nat) : ℚ :=
  let recent := filterRecent recs cutoff
  let h : ℚ := (heatRaw recent w b : ℚ) / 60
  let h2 : ℚ :=
    match weeksOf recent with
    | some wk => if 0 < wk then h / wk else h
    | none => h
  h2 * 60

/-- The data of a session that the density binner reads: its start and end
timestamps (lines 99, 107, 128).  The Duration column is never read. -/
def sessionPair (r : Session) : Nat × Nat := (r.start, r.stop)

/-! ### strptime with format "%y-%m-%d %H:%M:%S" (source lines 32-33)

CPython's strptime compiles the format to a regex: %y is exactly two
digits; %m, %d, %H, %M, %S accept the two-digit reading when its value is
in the directive's range, else a single digit; a space matches one or more
whitespace characters; trailing unconverted text is an error; finally the
datetime constructor checks the day against the month length and rejects
the leap seconds 60 and 61 that the %S regex admits.  Every failure is a
ValueError, modelled as none. -/

def isLeap (y : Nat) : Bool := (y % 4 == 0 && y % 100 != 0) || y % 400 == 0

def daysInMonth (y m : Nat) : Nat :=
  if m = 2 then (if isLeap y then 29 else 28)
  else if m = 4 ∨ m = 6 ∨ m = 9 ∨ m = 11 then 30
  else 31

/-- The %y directive: exactly two digits. -/
def parseY : List Char → Option (Nat × List Char)
  | a :: b :: rest =>
    if a.isDigit && b.isDigit then some (digitVal a * 10 + digitVal b, rest)
    else none
  | _ => none

/-- A numeric directive: the two-digit reading if valid, else one digit. -/
def parseNN (valid : Nat → Bool) : List Char → Option (Nat × List Char)
  | a :: b :: rest =>
    if a.isDigit && b.isDigit && valid (digitVal a * 10 + digitVal b) then
      some (digitVal a * 10 + digitVal b, rest)
    else if a.isDigit && valid (digitVal a) then some (digitVal a, b :: rest)
    else none
  | [a] => if a.isDigit && valid (digitVal a) then some (digitVal a, []) else none
  | [] => none

/-- A literal character of the format. -/
def parseChar (c : Char) : List Char → Option (List Char)
  | a :: rest => if a == c then some rest else none
  | [] => none

/-- A space in the format: one or more whitespace characters. -/
def parseWS : List Char → Option (List Char)
  | a :: rest => if isPyWS a then some (rest.dropWhile isPyWS) else none
  | [] => none

/-- datetime.strptime(s, "%y-%m-%d %H:%M:%S"), as the instant's Nat code;
years 69..99 map to 1969..1999 and 00..68 to 2000..2068. -/
def parseTS (cs : List Char) : Option Nat := do
  let (yy, r1) ← parseY cs
  let year := if yy ≤ 68 then 2000 + yy else 1900 + yy
  let r2 ← parseChar '-' r1
  let (mo, r3) ← parseNN (fun v => 1 ≤ v && v ≤ 12) r2
  let r4 ← parseChar '-' r3
  let (d, r5) ← parseNN (fun v => 1 ≤ v && v ≤ 31) r4
  let r6 ← parseWS r5
  let (hh, r7) ← parseNN (fun v => v ≤ 23) r6
  let r8 ← parseChar ':' r7
  let (mi, r9) ← parseNN (fun v => v ≤ 59) r8
  let r10 ← parseChar ':' r9
  let (ss, r11) ← parseNN (fun v => v ≤ 61) r10
  match r11 with
  | [] => if d ≤ daysInMonth year mo && ss ≤ 59 then some (mkT year mo d hh mi ss) else none
  | _ => none

/-! ### The loader loop (source lines 28-40) -/

/-- Line 30: parts = line.strip().split(","). -/
def lineParts (line : List Char) : List (List Char) := pySplit ',' (pyStrip line)

/-- Line 31: len(parts) == 4 and parts[1] and parts[2] (a Python string is
truthy when nonempty). -/
def acceptLine (line : List Char) : Bool :=
  match lineParts line with
  | [_, p1, p2, _] => !p1.isEmpty && !p2.isEmpty
  | _ => false

inductive PyError where
  /-- strptime or int() raised ValueError on an accepted line. -/
  | valueError
  /-- a function local was read before any assignment (UnboundLocalError). -/
  | unboundLocal
  deriving Repr, DecidableEq

/-- Lines 28-40: build the record list.  A structurally rejected line is
skipped silently; on an accepted line the two strptime calls and
parse_duration run, and a failure of any of them propagates out of the
whole load. -/
def loadRecords : List (List Char) → Except PyError (List Session)
  | [] => .ok []
  | line :: rest =>
    if acceptLine line then
      match parseTS ((lineParts line).getD 1 []),
            parseTS ((lineParts line).getD 2 []),
            parse_duration ((lineParts line).getD 3 []) with
      | some s, some e, some d => (loadRecords rest).map (fun rs => ⟨s, e, d⟩ :: rs)
      | _, _, _ => .error .valueError
    else loadRecords rest

/-! ### The daily aggregation (source lines 44-51)

The Date column holds datetime.date objects, so the groupby result is
indexed by date objects while pd.date_range produces Timestamp labels.
Before looking labels up, pandas Index.get_indexer first calls
_maybe_downcast_for_indexing (_maybe_promote in older versions), which
promotes an object index whose inferred_type is "date" to a DatetimeIndex
whenever the target is one; after the promotion each date key is the
Timestamp at midnight of its calendar day and matches the date_range
label of that day.  Both kinds of index key are therefore represented
here by their civil day number. -/

/-- df["Date"].min() (line 46): the smallest session date (the 0 default
is never reached: line 46 runs only on a non-empty frame). -/
def minDate (recs : List Session) : Nat :=
  match recs.map sessionDate with
  | [] => 0
  | d :: ds => ds.foldl min d

/-- df["Date"].max() (line 46). -/
def maxDate (recs : List Session) : Nat :=
  match recs.map sessionDate with
  | [] => 0
  | d :: ds => ds.foldl max d

/-- The summed Duration of the sessions whose Date is the civil day d. -/
def dayDurSum (recs : List Session) (d : Nat) : Int :=
  ((recs.filter (fun r => sessionDate r == d)).map Session.dur).sum

/-- Line 47, df.groupby("Date")["Duration"].sum(): one entry per distinct
session date, holding that day's summed Duration. -/
def groupedDur (recs : List Session) : List (Nat × Int) :=
  ((recs.map sessionDate).dedup).map (fun d => (d, dayDurSum recs d))

/-- Line 46, pd.date_range(df["Date"].min(), df["Date"].max()): one label
per day from the minimum to the maximum session date inclusive. -/
def allDates (recs : List Session) : List Nat :=
  match recs.map sessionDate with
  | [] => []
  | d :: ds => List.range' (ds.foldl min d) (ds.foldl max d + 1 - ds.foldl min d)

/-- Line 48, study_per_day.reindex(all_dates, fill_value=timedelta(0)):
for each date_range label, the value of the grouped series at the
(promoted) index key of the same day, else the fill value 0. -/
def reindexedDur (recs : List Session) : List (Nat × Int) :=
  (allDates recs).map (fun k =>
    (k, (((groupedDur recs).find? (fun p => p.1 == k)).map Prod.snd).getD 0))

/-- Line 51: x.total_seconds() / 3600 on every entry. -/
def study_per_day_hours (recs : List Session) : List (Nat × ℚ) :=
  (reindexedDur recs).map (fun p => (p.1, (p.2 : ℚ) / 3600))

/-! ### The moving averages (source lines 54-55) -/

/-- series.rolling(window=w).mean(): with the default min_periods equal to
the window, position i holds the mean of the w values ending at i once
i + 1 is at least w, and NaN (none) before that. -/
def rolling_mean (w : Nat) (xs : List ℚ) : List (Option ℚ) :=
  (List.range xs.length).map (fun i =>
    if w ≤ i + 1 then some (((xs.drop (i + 1 - w)).take w).sum / w) else none)

/-- Line 54. -/
def moving_avg_7d (xs : List ℚ) : List (Option ℚ) := rolling_mean 7 xs

/-- Line 55. -/
def moving_avg_30d (xs : List ℚ) : List (Option ℚ) := rolling_mean 30 xs

/-! ### The whole analysis (source lines 21-133) -/

structure Outputs where
  daily : List (Nat × ℚ)
  ma7 : List (Option ℚ)
  ma30 : List (Option ℚ)
  density : Nat → Nat → ℚ

/-- analyze_study_data up to the plotted artefacts: load the records; when
the frame is empty the guard at line 45 skips the block that assigns
study_per_day, and line 51 reads the never-assigned local, raising
UnboundLocalError; otherwise produce the daily hours series, the two
moving averages and the density matrix. -/
def analyze (lines : List (List Char)) (cutoff : Nat) : Except PyError Outputs := do
  let recs ← loadRecords lines
  if recs.isEmpty then
    .error .unboundLocal
  else
    let daily := study_per_day_hours recs
    .ok ⟨daily, moving_avg_7d (daily.map Prod.snd),
      moving_avg_30d (daily.map Prod.snd), heatFinal recs cutoff⟩

/-! ### Lemmas about the minute walk -/

theorem segMinutes_of_le {c e : Nat} (h : c ≤ e) :
    segMinutes c e = c :: segMinutes (c + 60) e := by
  rw [segMinutes]; simp [h]

theorem segMinutes_of_gt {c e : Nat} (h : ¬ c ≤ e) : segMinutes c e = [] := by
  rw [segMinutes]; simp [h]

theorem length_segMinutes {c e : Nat} (h : c ≤ e) :
    (segMinutes c e).length = (e - c) / 60 + 1 := by
  induction c, e using segMinutes.induct with
  | case1 c e h ih =>
    rw [segMinutes_of_le h]
    by_cases h60 : c + 60 ≤ e
    · have := ih h60
      simp only [List.length_cons, this]
      omega
    · rw [segMinutes_of_gt h60]
      simp only [List.length_cons, List.length_nil]
      omega
  | case2 c e h2 => exact absurd h h2

theorem mem_segMinutes_le {c e t : Nat} (h : t ∈ segMinutes c e) : t ≤ e := by
  induction c, e using segMinutes.induct with
  | case1 c e hc ih =>
    rw [segMinutes_of_le hc] at h
    rcases List.mem_cons.mp h with rfl | h2
    · exact hc
    · exact ih h2
  | case2 c e hc =>
    rw [segMinutes_of_gt hc] at h
    exact absurd h (List.not_mem_nil t)

theorem self_mem_segMinutes {c e : Nat} (h : c ≤ e) : c ∈ segMinutes c e := by
  rw [segMinutes_of_le h]; exact List.mem_cons_self c _

theorem sessionMinutes_of_lt {s e : Nat} (h : s < e) :
    sessionMinutes s e =
      segMinutes s (min e (dayEnd s)) ++ sessionMinutes (min e (dayEnd s) + 1) e := by
  rw [sessionMinutes]; simp [h]

theorem sessionMinutes_of_ge {s e : Nat} (h : ¬ s < e) : sessionMinutes s e = [] := by
  rw [sessionMinutes]; simp [h]

theorem le_dayEnd (s : Nat) : s ≤ dayEnd s := by
  unfold dayEnd dayOf; omega

theorem start_mem_sessionMinutes {s e : Nat} (h : s < e) : s ∈ sessionMinutes s e := by
  rw [sessionMinutes_of_lt h]
  refine List.mem_append_left _ (self_mem_segMinutes ?_)
  have := le_dayEnd s
  omega

theorem midnight_mem_sessionMinutes {s e : Nat} (h : dayEnd s + 1 < e) :
    dayEnd s + 1 ∈ sessionMinutes s e := by
  have hs : s < e := lt_of_le_of_lt (le_trans (le_dayEnd s) (Nat.le_succ _)) h
  rw [sessionMinutes_of_lt hs]
  have hmin : min e (dayEnd s) = dayEnd s := by omega
  rw [hmin]
  exact List.mem_append_right _ (start_mem_sessionMinutes h)

theorem sessionMinutes_lt_of_end_midnight {s e : Nat} (he : e % 86400 = 0) :
    ∀ t ∈ sessionMinutes s e, t < e := by
  induction s, e using sessionMinutes.induct with
  | case1 s e hlt segEnd ih =>
    intro t ht
    rw [sessionMinutes_of_lt hlt] at ht
    have hde : dayEnd s < e := by unfold dayEnd dayOf at *; omega
    rcases List.mem_append.mp ht with h1 | h2
    · have := mem_segMinutes_le h1
      omega
    · exact ih he t h2
  | case2 s e hge =>
    intro t ht
    rw [sessionMinutes_of_ge hge] at ht
    exact absurd ht (List.not_mem_nil t)

theorem length_sessionMinutes {s e : Nat}
    (h1 : s < e) (h2 : s % 60 = 0) (h3 : e % 86400 ≠ 0) :
    (sessionMinutes s e).length = (e - s) / 60 + 1 := by
  induction s, e using sessionMinutes.induct with
  | case1 s e hlt segEnd ih =>
    rw [sessionMinutes_of_lt hlt, List.length_append]
    by_cases hcross : dayEnd s < e
    · -- the session crosses midnight: the segment ends at 23:59:59 and the
      -- walk resumes at the next midnight
      have hmin : min e (dayEnd s) = dayEnd s := by omega
      have hmid60 : (dayEnd s + 1) % 60 = 0 := by unfold dayEnd dayOf; omega
      have hmidlt : dayEnd s + 1 < e := by
        rcases Nat.lt_or_ge (dayEnd s + 1) e with h | h
        · exact h
        · exfalso
          have : dayEnd s + 1 = e := by omega
          apply h3
          rw [← this]
          unfold dayEnd dayOf
          omega
      have hseg : segEnd = dayEnd s := hmin
      rw [hseg] at ih
      rw [hmin]
      rw [ih hmidlt hmid60 h3]
      rw [length_segMinutes (le_dayEnd s)]
      unfold dayEnd dayOf at *
      omega
    · -- the whole remaining interval fits in the current day
      have hmin : min e (dayEnd s) = e := by omega
      rw [hmin]
      rw [sessionMinutes_of_ge (by omega), length_segMinutes (Nat.le_of_lt hlt)]
      simp
  | case2 s e hge => exact absurd h1 hge

/-! ### The accumulated matrix total equals the number of visited minutes -/

theorem pyWeekday_lt (t : Nat) : pyWeekday t < 7 := by
  unfold pyWeekday; omega

theorem binIdx_lt (t : Nat) : binIdx t < 48 := by
  unfold binIdx minuteOfDay; omega

/-- Each visited minute lands in exactly one of the 7 x 48 cells. -/
theorem cellSum_eq_length (L : List Nat) :
    ∑ w ∈ Finset.range 7, ∑ b ∈ Finset.range 48,
      L.countP (fun t => pyWeekday t == w && binIdx t == b) = L.length := by
  induction L with
  | nil => simp
  | cons t L ih =>
    have hone : ∀ w ∈ Finset.range 7,
        (∑ b ∈ Finset.range 48,
          if (pyWeekday t == w && binIdx t == b) = true then 1 else 0) =
        if pyWeekday t = w then 1 else 0 := by
      intro w _
      by_cases hw : pyWeekday t = w
      · have hbeq : ∀ b : Nat,
            ((pyWeekday t == w && binIdx t == b) = true) = (binIdx t = b) := by
          intro b
          simp [hw]
        simp only [hbeq, if_pos hw]
        rw [Finset.sum_ite_eq (Finset.range 48) (binIdx t) (fun _ => 1)]
        simp [binIdx_lt t]
      · have hbeq : ∀ b : Nat, (pyWeekday t == w && binIdx t == b) = false := by
          intro b
          simp [beq_iff_eq, hw]
        simp [hbeq, hw]
    have hcell : (∑ w ∈ Finset.range 7, ∑ b ∈ Finset.range 48,
        if (pyWeekday t == w && binIdx t == b) = true then 1 else 0) = 1 := by
      rw [Finset.sum_congr rfl hone,
        Finset.sum_ite_eq (Finset.range 7) (pyWeekday t) (fun _ => 1)]
      simp [pyWeekday_lt t]
    simp only [List.countP_cons, Finset.sum_add_distrib, ih, hcell, List.length_cons]

theorem totalPre_eq_length (recs : List Session) :
    totalPre recs = (allMinutes recs).length := by
  unfold totalPre heatRaw
  exact cellSum_eq_length (allMinutes recs)

theorem allMinutes_singleton (r : Session) :
    allMinutes [r] = sessionMinutes r.start r.stop := by
  simp [allMinutes]

/-! ### Claims C1, C3, C4 -/

/-- Claim C1, counterexample: for the session from 2024-01-01 10:00:00 to
the same instant (start == end), the claim says the binner visits exactly
one minute and increments one cell, so the matrix total would be 1; the
outer loop guard (while start_time < end_time, line 109) never fires, so
no minute is visited and the total is 0. -/
theorem claim_C1_counterexample :
    sessionMinutes (mkT 2024 1 1 10 0 0) (mkT 2024 1 1 10 0 0) = [] ∧
    totalPre [⟨mkT 2024 1 1 10 0 0, mkT 2024 1 1 10 0 0, 3600⟩] ≠ 1 := by
  have h0 : sessionMinutes (mkT 2024 1 1 10 0 0) (mkT 2024 1 1 10 0 0) = [] :=
    sessionMinutes_of_ge (lt_irrefl _)
  refine ⟨h0, ?_⟩
  rw [totalPre_eq_length, allMinutes_singleton]
  simp [h0]

/-- Claim C1 (amended): a session with start == end visits no minute at
all and increments no cell, because the outer loop condition
start_time < end_time is already false. -/
theorem claim_C1 (s : Nat) (d : Int) (w b : Nat) :
    sessionMinutes s s = [] ∧ heatRaw [⟨s, s, d⟩] w b = 0 := by
  have h0 : sessionMinutes s s = [] := sessionMinutes_of_ge (lt_irrefl s)
  refine ⟨h0, ?_⟩
  unfold heatRaw
  rw [allMinutes_singleton]
  simp [h0]

/-- Claim C3, counterexample: the session from 2024-01-01 23:45:00 to
2024-01-02 00:00:00 crosses midnight (its end lies on the next calendar
day), yet the resumed cursor at day_end + 1s equals the end and the outer
guard start_time < end_time stops, so 00:00:00 of the next day is NOT
visited, contradicting the claim that it always is. -/
theorem claim_C3_counterexample :
    mkT 2024 1 1 23 45 0 < mkT 2024 1 2 0 0 0 ∧
    dayOf (mkT 2024 1 1 23 45 0) < dayOf (mkT 2024 1 2 0 0 0) ∧
    dayEnd (mkT 2024 1 1 23 45 0) + 1 ∉
      sessionMinutes (mkT 2024 1 1 23 45 0) (mkT 2024 1 2 0 0 0) := by
  refine ⟨by decide, by decide, fun hmem => ?_⟩
  have hlt := sessionMinutes_lt_of_end_midnight
    (s := mkT 2024 1 1 23 45 0) (e := mkT 2024 1 2 0 0 0) (by decide) _ hmem
  have he : dayEnd (mkT 2024 1 1 23 45 0) + 1 = mkT 2024 1 2 0 0 0 := by decide
  omega

/-- Claim C3 (amended): the binner splits a midnight-crossing interval at
23:59:59 and resumes at one second past the split; that instant (00:00:00
of the next day) is visited whenever the session extends strictly past it
(it is skipped when the session ends exactly at midnight).  In particular
the session 2024-01-01 23:45:00 .. 2024-01-02 00:15:00 contributes minutes
both to the Monday row (weekday 0, bin 47) and to the Tuesday row
(weekday 1, bin 0) of the matrix. -/
theorem claim_C3 :
    (∀ s e : Nat, dayEnd s + 1 < e → dayEnd s + 1 ∈ sessionMinutes s e) ∧
    0 < heatRaw [⟨mkT 2024 1 1 23 45 0, mkT 2024 1 2 0 15 0, 1800⟩] 0 47 ∧
    0 < heatRaw [⟨mkT 2024 1 1 23 45 0, mkT 2024 1 2 0 15 0, 1800⟩] 1 0 := by
  refine ⟨fun s e h => midnight_mem_sessionMinutes h, ?_, ?_⟩
  · unfold heatRaw
    rw [allMinutes_singleton]
    refine List.countP_pos.mpr ⟨mkT 2024 1 1 23 45 0, ?_, by decide⟩
    exact start_mem_sessionMinutes (by decide)
  · unfold heatRaw
    rw [allMinutes_singleton]
    refine List.countP_pos.mpr ⟨mkT 2024 1 2 0 0 0, ?_, by decide⟩
    have he : dayEnd (mkT 2024 1 1 23 45 0) + 1 = mkT 2024 1 2 0 0 0 := by decide
    rw [← he]
    exact midnight_mem_sessionMinutes (by decide)

/-- Witness for the universally quantified part of claim C3. -/
theorem claim_C3_witness :
    dayEnd 0 + 1 < 200000 ∧ dayEnd 0 + 1 ∈ sessionMinutes 0 200000 :=
  ⟨by decide, claim_C3.1 0 200000 (by decide)⟩

/-- Claim C4, counterexample: for the single filtered session from
2024-01-01 23:59:30 to 2024-01-02 00:00:20, the claimed total
floor((end - start)/60) + 1 is 1 (the span is 50 seconds), but the walk
visits 23:59:30 in the first day segment and then 00:00:00 after the
one-second resume, so the matrix total is 2. -/
theorem claim_C4_counterexample :
    totalPre [⟨mkT 2024 1 1 23 59 30, mkT 2024 1 2 0 0 20, 50⟩] = 2 ∧
    (mkT 2024 1 2 0 0 20 - mkT 2024 1 1 23 59 30) / 60 + 1 = 1 := by
  constructor
  · rw [totalPre_eq_length, allMinutes_singleton]
    have h1 : sessionMinutes (mkT 2024 1 1 23 59 30) (mkT 2024 1 2 0 0 20) =
        segMinutes (mkT 2024 1 1 23 59 30) (dayEnd (mkT 2024 1 1 23 59 30)) ++
        sessionMinutes (dayEnd (mkT 2024 1 1 23 59 30) + 1) (mkT 2024 1 2 0 0 20) := by
      rw [sessionMinutes_of_lt (by decide)]
      norm_num [dayEnd, dayOf, mkT, civilDay]
    have h2 : sessionMinutes (dayEnd (mkT 2024 1 1 23 59 30) + 1) (mkT 2024 1 2 0 0 20) =
        segMinutes (dayEnd (mkT 2024 1 1 23 59 30) + 1) (mkT 2024 1 2 0 0 20) ++
        sessionMinutes (mkT 2024 1 2 0 0 20 + 1) (mkT 2024 1 2 0 0 20) := by
      rw [sessionMinutes_of_lt (by decide)]
      norm_num [dayEnd, dayOf, mkT, civilDay]
    rw [h1, h2, sessionMinutes_of_ge (by omega)]
    simp only [List.length_append, List.length_nil]
    rw [length_segMinutes (c := mkT 2024 1 1 23 59 30)
      (e := dayEnd (mkT 2024 1 1 23 59 30)) (by decide)]
    rw [length_segMinutes (c := dayEnd (mkT 2024 1 1 23 59 30) + 1)
      (e := mkT 2024 1 2 0 0 20) (by decide)]
    decide
  · decide

/-- Claim C4 (amended): provided every filtered session has start < end,
starts exactly on a minute boundary, and does not end exactly at a
midnight, the matrix total before the weeks normalisation equals the sum
over the sessions of floor((end - start) in minutes) + 1.  (A day split
resets the minute phase of the walk to zero and an exact-midnight end
stops the outer loop before the resumed cursor runs, so sessions
violating these conditions can contribute one minute more or fewer.) -/
theorem claim_C4 (recs : List Session)
    (h : ∀ r ∈ recs, r.start < r.stop ∧ r.start % 60 = 0 ∧ r.stop % 86400 ≠ 0) :
    totalPre recs = (recs.map (fun r => (r.stop - r.start) / 60 + 1)).sum := by
  rw [totalPre_eq_length]
  induction recs with
  | nil => simp [allMinutes]
  | cons r rest ih =>
    have hr := h r (List.mem_cons_self r rest)
    have hrest := ih (fun x hx => h x (List.mem_cons_of_mem r hx))
    simp only [allMinutes, List.flatMap_cons, List.length_append, List.map_cons,
      List.sum_cons]
    rw [length_sessionMinutes hr.1 hr.2.1 hr.2.2]
    unfold allMinutes at hrest
    omega

/-- Witness for claim C4 at the midnight-crossing session
2024-01-01 23:45:00 .. 2024-01-02 00:15:00. -/
theorem claim_C4_witness :
    (∀ r ∈ [(⟨mkT 2024 1 1 23 45 0, mkT 2024 1 2 0 15 0, 1800⟩ : Session)],
      r.start < r.stop ∧ r.start % 60 = 0 ∧ r.stop % 86400 ≠ 0) ∧
    totalPre [⟨mkT 2024 1 1 23 45 0, mkT 2024 1 2 0 15 0, 1800⟩] =
      (([(⟨mkT 2024 1 1 23 45 0, mkT 2024 1 2 0 15 0, 1800⟩ : Session)]).map
        (fun r => (r.stop - r.start) / 60 + 1)).sum :=
  ⟨by decide, claim_C4 _ (by decide)⟩

/-! ### Claims C9 and C10: the normalisation guard and what the binner reads -/

/-- Claim C9: when the recency filter retains no session, the weeks value
is NaT-derived nan (none), so the division of lines 129-130 is skipped and
every cell of the final matrix is zero; nothing raises. -/
theorem claim_C9 (recs : List Session) (cutoff : Nat)
    (h : filterRecent recs cutoff = []) :
    weeksOf (filterRecent recs cutoff) = none ∧
    ∀ w b, heatFinal recs cutoff w b = 0 := by
  constructor
  · rw [h]
    rfl
  · intro w b
    simp only [heatFinal, h]
    simp [heatRaw, allMinutes, weeksOf]

/-- Witness for claim C9: one session well before the cutoff. -/
theorem claim_C9_witness :
    filterRecent [⟨86400, 90000, 600⟩] 100000000 = [] ∧
    heatFinal [⟨86400, 90000, 600⟩] 100000000 3 5 = 0 ∧
    weeksOf (filterRecent [⟨86400, 90000, 600⟩] 100000000) = none := by
  have h : filterRecent [(⟨86400, 90000, 600⟩ : Session)] 100000000 = [] := by decide
  exact ⟨h, (claim_C9 _ _ h).2 3 5, (claim_C9 _ _ h).1⟩

theorem pairMap_filterRecent {recs1 recs2 : List Session} (cutoff : Nat)
    (h : recs1.map sessionPair = recs2.map sessionPair) :
    (filterRecent recs1 cutoff).map sessionPair =
    (filterRecent recs2 cutoff).map sessionPair := by
  induction recs1 generalizing recs2 with
  | nil =>
    cases recs2 with
    | nil => rfl
    | cons b l2 => simp at h
  | cons a l1 ih =>
    cases recs2 with
    | nil => simp at h
    | cons b l2 =>
      simp only [List.map_cons, List.cons.injEq] at h
      have hstart : a.start = b.start := congrArg Prod.fst h.1
      unfold filterRecent at *
      simp only [List.filter_cons, hstart]
      by_cases hc : (decide (cutoff ≤ b.start) = true)
      · rw [if_pos hc, if_pos hc]
        simp only [List.map_cons, List.cons.injEq]
        exact ⟨h.1, ih h.2⟩
      · rw [if_neg hc, if_neg hc]
        exact ih h.2

theorem allMinutes_congr {recs1 recs2 : List Session}
    (h : recs1.map sessionPair = recs2.map sessionPair) :
    allMinutes recs1 = allMinutes recs2 := by
  induction recs1 generalizing recs2 with
  | nil =>
    cases recs2 with
    | nil => rfl
    | cons b l2 => simp at h
  | cons a l1 ih =>
    cases recs2 with
    | nil => simp at h
    | cons b l2 =>
      simp only [List.map_cons, List.cons.injEq] at h
      have hstart : a.start = b.start := congrArg Prod.fst h.1
      have hstop : a.stop = b.stop := congrArg Prod.snd h.1
      simp only [allMinutes, List.flatMap_cons] at *
      rw [hstart, hstop]
      exact congrArg _ (ih h.2)

theorem weeksOf_congr {recs1 recs2 : List Session}
    (h : recs1.map sessionPair = recs2.map sessionPair) :
    weeksOf recs1 = weeksOf recs2 := by
  have hs : recs1.map Session.start = recs2.map Session.start := by
    have h2 := congrArg (List.map Prod.fst) h
    simpa [List.map_map, Function.comp, sessionPair] using h2
  unfold weeksOf
  rw [hs]

/-- Claim C10: two accepted session sets that agree on every start and end
timestamp (but may differ in their Duration values) produce the same final
density matrix for the same cutoff: the binner never reads the Duration
column. -/
theorem claim_C10 (recs1 recs2 : List Session) (cutoff : Nat)
    (h : recs1.map sessionPair = recs2.map sessionPair) :
    ∀ w b, heatFinal recs1 cutoff w b = heatFinal recs2 cutoff w b := by
  intro w b
  have hf := pairMap_filterRecent cutoff h
  have h1 : heatRaw (filterRecent recs1 cutoff) w b =
      heatRaw (filterRecent recs2 cutoff) w b := by
    unfold heatRaw
    rw [allMinutes_congr hf]
  simp only [heatFinal]
  rw [h1, weeksOf_congr hf]

/-- Witness for claim C10: same timestamps, different durations. -/
theorem claim_C10_witness :
    ([(⟨0, 60, 10⟩ : Session)]).map sessionPair =
      ([(⟨0, 60, 999⟩ : Session)]).map sessionPair ∧
    heatFinal [⟨0, 60, 10⟩] 0 0 0 = heatFinal [⟨0, 60, 999⟩] 0 0 0 :=
  ⟨by decide, claim_C10 _ _ 0 (by decide) 0 0⟩

/-! ### Claims C2, C8, C5 -/

/-- Claim C2: the claim says that with zero accepted lines the analysis
completes without raising, with empty series and an all-zero matrix.  The
code instead raises: with no accepted line the frame is empty, the guard
at line 45 skips the assignment of study_per_day, and line 51 reads the
unassigned local (UnboundLocalError).  This theorem evaluates the code at
an empty input and at an input whose only line is structurally rejected. -/
theorem claim_C2_bug (cutoff : Nat) :
    analyze [] cutoff = .error PyError.unboundLocal ∧
    analyze [("this line has no commas").toList] cutoff =
      .error PyError.unboundLocal := by
  exact ⟨rfl, rfl⟩

/-- Claim C8: the three example tokens parse to 5020, 2700 and 30 seconds,
and an absent unit marker leaves that unit at its initialised zero (each
step is the identity when its marker is absent). -/
theorem claim_C8 :
    parse_duration (("1h 23m 40s").toList) = some 5020 ∧
    parse_duration (("45m").toList) = some 2700 ∧
    parse_duration (("30s").toList) = some 30 ∧
    (∀ st : DurState, st.rest.contains 'h' = false → stepH st = some st) ∧
    (∀ st : DurState, st.rest.contains 'm' = false → stepM st = some st) ∧
    (∀ st : DurState, st.rest.contains 's' = false → stepS st = some st) := by
  refine ⟨by decide, by decide, by decide, ?_, ?_, ?_⟩
  · intro st h
    have h2 : 'h' ∉ st.rest := by simpa using h
    simp [stepH, h2]
  · intro st h
    have h2 : 'm' ∉ st.rest := by simpa using h
    simp [stepM, h2]
  · intro st h
    have h2 : 's' ∉ st.rest := by simpa using h
    simp [stepS, h2]

/-- Witness for the absent-marker part of claim C8. -/
theorem claim_C8_witness :
    ((⟨0, 0, 0, ("40s").toList⟩ : DurState).rest.contains 'h') = false ∧
    stepH ⟨0, 0, 0, ("40s").toList⟩ = some ⟨0, 0, 0, ("40s").toList⟩ :=
  ⟨by decide, claim_C8.2.2.2.1 _ (by decide)⟩

/-- In an association list keyed by distinct values through one value
function, the first match for a key present in the list is that key's
entry, and a key absent from the list has no match. -/
theorem find?_keyed (l : List Nat) (g : Nat → Int) (d : Nat) :
    (l.map (fun x => (x, g x))).find? (fun p => p.1 == d) =
      if d ∈ l then some (d, g d) else none := by
  induction l with
  | nil => simp
  | cons a t ih =>
    by_cases ha : a = d
    · subst ha
      simp [List.find?_cons]
    · have had : ¬ d = a := fun h => ha h.symm
      simp [List.find?_cons, ha, had, ih]

/-- A day on which no session starts has a zero Duration sum. -/
theorem dayDurSum_eq_zero {recs : List Session} {d : Nat}
    (h : d ∉ recs.map sessionDate) : dayDurSum recs d = 0 := by
  unfold dayDurSum
  have hnil : recs.filter (fun r => sessionDate r == d) = [] := by
    rw [List.filter_eq_nil]
    intro r hr
    simp only [beq_iff_eq]
    intro hd
    exact h (List.mem_map.mpr ⟨r, hr, hd⟩)
  rw [hnil]
  simp

/-- Claim C5: for a non-empty record set, the daily series' date index is
the contiguous run of civil days from the minimum to the maximum session
date with no gap (pandas promotes the date-keyed groupby index to a
DatetimeIndex before the reindex lookup, so present days keep their
sums), and every day's value is that day's summed Duration divided by
3600 — the fill value 0 on days with no session, which equals the empty
sum. -/
theorem claim_C5 (recs : List Session) (hne : recs ≠ []) :
    (study_per_day_hours recs).map Prod.fst =
      List.range' (minDate recs) (maxDate recs + 1 - minDate recs) ∧
    ∀ p ∈ study_per_day_hours recs, p.2 = (dayDurSum recs p.1 : ℚ) / 3600 := by
  constructor
  · have hfst : ∀ L : List Nat,
        ((L.map (fun k => (k, (((groupedDur recs).find? (fun p => p.1 == k)).map
            Prod.snd).getD 0))).map
          (fun p => (p.1, (p.2 : ℚ) / 3600))).map Prod.fst = L := by
      intro L
      induction L with
      | nil => rfl
      | cons a t iht => simp_all
    unfold study_per_day_hours reindexedDur
    rw [hfst]
    unfold allDates minDate maxDate
    cases hm : recs.map sessionDate with
    | nil =>
      cases recs with
      | nil => exact absurd rfl hne
      | cons r rs => simp at hm
    | cons d ds => rfl
  · intro p hp
    unfold study_per_day_hours reindexedDur at hp
    rcases List.mem_map.mp hp with ⟨q, hq, rfl⟩
    rcases List.mem_map.mp hq with ⟨k, hk, rfl⟩
    simp only
    unfold groupedDur
    rw [find?_keyed]
    by_cases hmem : k ∈ (recs.map sessionDate).dedup
    · rw [if_pos hmem]
      rfl
    · rw [if_neg hmem]
      have h0 : dayDurSum recs k = 0 :=
        dayDurSum_eq_zero (by simpa [List.mem_dedup] using hmem)
      simp [h0]

/-- Witness for claim C5: two sessions two days apart, so the index must
bridge the sessionless middle day. -/
theorem claim_C5_witness :
    ([⟨mkT 2024 1 1 10 0 0, mkT 2024 1 1 11 0 0, 3600⟩,
      ⟨mkT 2024 1 3 9 0 0, mkT 2024 1 3 9 30 0, 1800⟩] : List Session) ≠ [] ∧
    ((study_per_day_hours
        [⟨mkT 2024 1 1 10 0 0, mkT 2024 1 1 11 0 0, 3600⟩,
         ⟨mkT 2024 1 3 9 0 0, mkT 2024 1 3 9 30 0, 1800⟩]).map Prod.fst =
      List.range'
        (minDate [⟨mkT 2024 1 1 10 0 0, mkT 2024 1 1 11 0 0, 3600⟩,
          ⟨mkT 2024 1 3 9 0 0, mkT 2024 1 3 9 30 0, 1800⟩])
        (maxDate [⟨mkT 2024 1 1 10 0 0, mkT 2024 1 1 11 0 0, 3600⟩,
          ⟨mkT 2024 1 3 9 0 0, mkT 2024 1 3 9 30 0, 1800⟩] + 1 -
         minDate [⟨mkT 2024 1 1 10 0 0, mkT 2024 1 1 11 0 0, 3600⟩,
          ⟨mkT 2024 1 3 9 0 0, mkT 2024 1 3 9 30 0, 1800⟩])) :=
  ⟨by decide,
    (claim_C5 [⟨mkT 2024 1 1 10 0 0, mkT 2024 1 1 11 0 0, 3600⟩,
      ⟨mkT 2024 1 3 9 0 0, mkT 2024 1 3 9 30 0, 1800⟩] (by decide)).1⟩

/-! ### Claim C6: the rolling means -/

theorem takeWhile_none_range' (w : Nat) (f : Nat → ℚ) :
    ∀ n s, (((List.range' s n).map
        (fun i => if w ≤ i + 1 then some (f i) else none)).takeWhile
        (fun o => o.isNone)).length = min n (w - 1 - s) := by
  intro n
  induction n with
  | zero => intro s; simp
  | succ n ih =>
    intro s
    rw [List.range'_succ]
    simp only [List.map_cons, List.takeWhile_cons]
    by_cases hc : w ≤ s + 1
    · rw [if_pos hc]
      simp only [Option.isNone_some, Bool.false_eq_true, if_false, List.length_nil]
      omega
    · rw [if_neg hc]
      simp only [Option.isNone_none, if_true, List.length_cons, ih (s + 1)]
      omega

/-- Claim C6, counterexample: for the daily hours series of length 1, the
7-sample rolling mean has exactly 1 leading no-value position, not
max(0, 7 - 1) = 6 as the claim asserts for every series. -/
theorem claim_C6_counterexample :
    ((rolling_mean 7 [1]).takeWhile (fun o => o.isNone)).length = 1 ∧
    (1 : Nat) ≠ max 0 (7 - 1) := by
  exact ⟨rfl, by decide⟩

/-- Claim C6 (amended): for a series of length N and window W in {7, 30},
the rolling mean has exactly min(N, W - 1) leading no-value positions
(min_periods defaults to the window, and a position cannot exist beyond
the series length); every position with fewer than W - 1 predecessors is
the distinguishable no-value marker, and every position i with
i + 1 >= W holds the arithmetic mean of the W values ending at i. -/
theorem claim_C6 (xs : List ℚ) (w : Nat) (hw : w = 7 ∨ w = 30) :
    ((rolling_mean w xs).takeWhile (fun o => o.isNone)).length =
      min xs.length (w - 1) ∧
    (∀ i : Nat, i + 1 < w → i < xs.length → (rolling_mean w xs)[i]? = some none) ∧
    (∀ i : Nat, w ≤ i + 1 → i < xs.length →
      (rolling_mean w xs)[i]? =
        some (some (((xs.drop (i + 1 - w)).take w).sum / w))) := by
  refine ⟨?_, ?_, ?_⟩
  · have h := takeWhile_none_range' w
      (fun i => ((xs.drop (i + 1 - w)).take w).sum / w) xs.length 0
    unfold rolling_mean
    rw [List.range_eq_range']
    simpa using h
  · intro i h1 h2
    unfold rolling_mean
    rw [List.getElem?_map, List.getElem?_range h2]
    simp only [Option.map_some']
    rw [if_neg (by omega)]
  · intro i h1 h2
    unfold rolling_mean
    rw [List.getElem?_map, List.getElem?_range h2]
    simp only [Option.map_some']
    rw [if_pos h1]

/-- Witness for claim C6 on a two-element series with window 7. -/
theorem claim_C6_witness :
    ((rolling_mean 7 [0, 0]).takeWhile (fun o => o.isNone)).length =
      min ([(0 : ℚ), 0].length) (7 - 1) :=
  (claim_C6 [0, 0] 7 (Or.inl rfl)).1

/-! ### Claim C7: the loader's acceptance and error behaviour -/

/-- Claim C7: a line is accepted iff the stripped line splits on commas
into exactly 4 fields whose start and end fields are nonempty; a rejected
line is skipped silently (the load is the same without it); and if any
accepted line's start or end timestamp fails the two-digit-year format,
the whole load surfaces a ValueError instead of skipping the line. -/
theorem claim_C7 :
    (∀ line : List Char,
      acceptLine line = true ↔
        ((lineParts line).length = 4 ∧
         (lineParts line).getD 1 [] ≠ [] ∧ (lineParts line).getD 2 [] ≠ [])) ∧
    (∀ (line : List Char) (rest : List (List Char)), acceptLine line = false →
      loadRecords (line :: rest) = loadRecords rest) ∧
    (∀ (lines : List (List Char)) (line : List Char), line ∈ lines →
      acceptLine line = true →
      (parseTS ((lineParts line).getD 1 []) = none ∨
       parseTS ((lineParts line).getD 2 []) = none) →
      loadRecords lines = .error PyError.valueError) := by
  refine ⟨?_, ?_, ?_⟩
  · intro line
    rcases hp : lineParts line with _ | ⟨p0, _ | ⟨p1, _ | ⟨p2, _ | ⟨p3, _ | ⟨p4, t⟩⟩⟩⟩⟩ <;>
      simp [acceptLine, hp, List.isEmpty_iff]
  · intro line rest hacc
    conv_lhs => rw [loadRecords]
    rw [if_neg (by simp [hacc])]
  · intro lines
    induction lines with
    | nil =>
      intro line h
      exact absurd h (List.not_mem_nil line)
    | cons l0 rest ih =>
      intro line hmem hacc hbad
      rcases List.mem_cons.mp hmem with rfl | hmem2
      · unfold loadRecords
        rw [if_pos hacc]
        rcases hbad with hb | hb
        · rw [hb]
        · rw [hb]
          rcases parseTS ((lineParts line).getD 1 []) with _ | v1 <;> rfl
      · have herr := ih line hmem2 hacc hbad
        unfold loadRecords
        by_cases hacc0 : acceptLine l0 = true
        · rw [if_pos hacc0]
          rcases parseTS ((lineParts l0).getD 1 []) with _ | v1
          · rfl
          rcases parseTS ((lineParts l0).getD 2 []) with _ | v2
          · rfl
          rcases parse_duration ((lineParts l0).getD 3 []) with _ | v3
          · rfl
          · rw [herr]
            rfl
        · rw [if_neg hacc0]
          exact herr

/-- Witness for claim C7: a single accepted line whose start timestamp is
not in the two-digit-year format. -/
theorem claim_C7_witness :
    acceptLine (("a,9999,24-01-01 10:00:00,5s").toList) = true ∧
    parseTS ((lineParts (("a,9999,24-01-01 10:00:00,5s").toList)).getD 1 []) = none ∧
    loadRecords [("a,9999,24-01-01 10:00:00,5s").toList] = .error PyError.valueError :=
  ⟨by decide, by decide,
    claim_C7.2.2 _ _ (List.mem_singleton.mpr rfl) (by decide) (Or.inl (by decide))⟩
